import Mathlib

/-!
Verification of the data-shaping pipeline of the energy-consumption
forecasting notebook (`Time_Series_Forecasting/Energy_Consumption_Exercise.ipynb`).

The notebook is a linear pandas pipeline.  We embed the parts the claims are
about:

* a small JSON value type mirroring the Python dictionaries the notebook
  builds, together with `json.dumps` and the UTF-8 byte encoding;
* the two exercise functions `create_training_series` and
  `series_to_json_obj`, whose bodies are left unsolved in the notebook
  (`pass`) and are therefore modelled from the specification;
* `make_time_series`, `write_json_dataset`, `json_predictor_input` and
  `decode_prediction`, translated from the notebook code;
* the daily resampling step `power_df.resample(freq).mean()` with pandas
  semantics (one bin per calendar day between the first and the last observed
  day, empty bins carrying the missing marker NaN, modelled as `none`).

Values are modelled as rationals; a missing value (NaN) is `Option.none`.
-/

/-- JSON values, mirroring the Python dictionaries/lists/strings/numbers that
`json.dumps` receives in the notebook.  Object fields keep insertion order,
as Python dictionaries do. -/
inductive Json where
  | str : String → Json
  | num : ℚ → Json
  | arr : List Json → Json
  | obj : List (String × Json) → Json

/-- Keys of a JSON object, in order; `[]` on non-objects. -/
def objKeys : Json → List String
  | Json.obj kvs => kvs.map Prod.fst
  | _ => []

/-- Field lookup on a JSON object (Python `d[k]`, first match). -/
def jGet (j : Json) (k : String) : Option Json :=
  match j with
  | Json.obj kvs => (kvs.find? (fun p => p.1 == k)).map Prod.snd
  | _ => none

/-- Render a JSON string body, escaping backslash and quote as
`json.dumps` does for the strings appearing in this pipeline. -/
def escapeChar (c : Char) : List Char :=
  if c = '\\' then ['\\', '\\']
  else if c = '"' then ['\\', '"']
  else [c]

/-- Python `json.dumps` rendering of a string. -/
def renderString (s : String) : String :=
  "\"" ++ String.mk ((s.data.map escapeChar).flatten) ++ "\""

/-- Rendering of a number.  The claims under verification constrain only the
structure of the emitted JSON, never the digit syntax of a number, so the
rational is rendered with its canonical `toString` (integers without a
fractional part, as in Python). -/
def renderNum (q : ℚ) : String :=
  if q.den = 1 then toString q.num else toString q

mutual

/-- Python `json.dumps` with its default separators `", "` and `": "`. -/
def dumps : Json → String
  | Json.str s => renderString s
  | Json.num q => renderNum q
  | Json.arr js => "[" ++ dumpsList js ++ "]"
  | Json.obj kvs => "\x7b" ++ dumpsObj kvs ++ "\x7d"

/-- Comma-separated rendering of the elements of a JSON array. -/
def dumpsList : List Json → String
  | [] => ""
  | [j] => dumps j
  | j :: j' :: rest => dumps j ++ ", " ++ dumpsList (j' :: rest)

/-- Comma-separated rendering of the fields of a JSON object. -/
def dumpsObj : List (String × Json) → String
  | [] => ""
  | [(k, v)] => renderString k ++ ": " ++ dumps v
  | (k, v) :: kv :: rest => renderString k ++ ": " ++ dumps v ++ ", " ++ dumpsObj (kv :: rest)

end

/-- The UTF-8 bytes of one character (Python `str.encode` on one code point). -/
def utf8Bytes (c : Char) : List Nat :=
  let n := c.toNat
  if n < 128 then [n]
  else if n < 2048 then [192 + n / 64, 128 + n % 64]
  else if n < 65536 then [224 + n / 4096, 128 + (n / 64) % 64, 128 + n % 64]
  else [240 + n / 262144, 128 + (n / 4096) % 64, 128 + (n / 64) % 64, 128 + n % 64]

/-- Python `s.encode('utf-8')`: the UTF-8 byte sequence of a string. -/
def encodeUtf8 (s : String) : List Nat :=
  (s.data.map utf8Bytes).flatten

/-- A timestamp at second precision, as carried by the daily series index. -/
structure Timestamp where
  year : Nat
  month : Nat
  day : Nat
  hour : Nat
  minute : Nat
  second : Nat
deriving DecidableEq

/-- Zero-padded two-digit rendering of a field value below 100. -/
def pad2 (n : Nat) : String :=
  if n < 10 then "0" ++ toString n else toString n

/-- Zero-padded four-digit rendering of a year below 10000. -/
def pad4 (n : Nat) : String :=
  if n < 10 then "000" ++ toString n
  else if n < 100 then "00" ++ toString n
  else if n < 1000 then "0" ++ toString n
  else toString n

/-- The `"YYYY-MM-DD HH:MM:SS"` rendering of a timestamp, the format
`str(ts.index[0])` produces for a second-resolution pandas timestamp. -/
def formatTimestamp (t : Timestamp) : String :=
  pad4 t.year ++ "-" ++ pad2 t.month ++ "-" ++ pad2 t.day ++ " " ++
    pad2 t.hour ++ ":" ++ pad2 t.minute ++ ":" ++ pad2 t.second

/-- A single time series as handed to the JSON stage: a start timestamp and
the ordered numeric values (one per day). -/
structure TimeSeries where
  start : Timestamp
  values : List ℚ
deriving DecidableEq

/-- Modelled from the spec: the notebook leaves `series_to_json_obj` as an
unsolved fill-in exercise (its body is `pass`), so the record is built from
§4.5 of the specification: `start` is the first timestamp of the series
formatted `"YYYY-MM-DD HH:MM:SS"`, `target` is the list of the values of the
series in their existing order as plain numbers, and no `cat` field is
populated. -/
def series_to_json_obj (ts : TimeSeries) : Json :=
  Json.obj [("start", Json.str (formatTimestamp ts.start)),
            ("target", Json.arr (ts.values.map Json.num))]

/-- Modelled from the spec: the notebook leaves `create_training_series` as an
unsolved fill-in exercise (its body is `pass`), so it is built from §4.4 and
§7 of the specification: each series loses its final `prediction_length`
points, and a series shorter than the prediction horizon raises an explicit
error instead of silently producing a malformed result. -/
def create_training_series (complete_time_series : List (List ℚ))
    (prediction_length : Nat) : Except String (List (List ℚ)) :=
  if complete_time_series.all (fun s => prediction_length ≤ s.length) then
    Except.ok (complete_time_series.map
      (fun s => s.take (s.length - prediction_length)))
  else
    Except.error "series shorter than prediction_length"

/-- The Gregorian leap-year rule, as implemented by the pandas datetime
machinery that builds the yearly `DatetimeIndex`. -/
def isLeapYear (y : Nat) : Bool :=
  (y % 4 == 0 && y % 100 != 0) || y % 400 == 0

/-- Number of days of month `m` (1-based) in a year with leap flag `leap`. -/
def daysInMonth (m : Nat) (leap : Bool) : Nat :=
  if m = 2 then (if leap then 29 else 28)
  else if m = 4 ∨ m = 6 ∨ m = 9 ∨ m = 11 then 30
  else 31

/-- All (month, day) pairs of a year with leap flag `leap`, in calendar
order: the dates generated by `pd.DatetimeIndex(start=Jan 1, end=Dec 31,
freq='D')` for that year. -/
def yearDates (leap : Bool) : List (Nat × Nat) :=
  ((List.range 12).map
    (fun m => (List.range (daysInMonth (m + 1) leap)).map
      (fun d => (m + 1, d + 1)))).flatten

/-- A calendar date (year, month, day). -/
abbrev Date := Nat × Nat × Nat

/-- The dates of year `y` from January 1 through December 31, in order. -/
def datesOfYear (y : Nat) : List Date :=
  (yearDates (isLeapYear y)).map (fun md => (y, md.1, md.2))

/-- The slice width `end_idx - start_idx` the notebook uses for one year:
`make_time_series` hardcodes the leap year of this dataset as the literal
`'2008'` when advancing its dataframe cursor. -/
def sliceLen (year : Nat) : Nat :=
  if year = 2008 then 366 else 365

/-- One year's series, as built inside the loop of `make_time_series`:
`data = mean_power_df[start_idx:end_idx]` is the positional slice of the
daily dataframe (which keeps its date labels), and
`pd.Series(data=data, index=index)` aligns that slice to the Jan 1 … Dec 31
index of the year by date label, yielding NaN (`none`) for index dates the
slice does not carry. -/
def mkYearSeries (df : List (Date × ℚ)) (year s e : Nat) :
    List (Date × Option ℚ) :=
  let data := (df.drop s).take (e - s)
  (datesOfYear year).map
    (fun d => (d, (data.find? (fun p => p.1 == d)).map Prod.snd))

/-- `make_time_series` from the notebook: for each requested year, compute
`end_idx = start_idx + (366 if year == '2008' else 365)`, slice the daily
dataframe positionally at `[start_idx:end_idx)`, align the slice to the
year's Jan 1 … Dec 31 daily index, and continue with `start_idx = end_idx`.
Years are modelled as numbers rather than the strings of the notebook. -/
def make_time_series (df : List (Date × ℚ)) (years : List Nat)
    (start_idx : Nat) : List (List (Date × Option ℚ)) :=
  match years with
  | [] => []
  | y :: rest =>
    mkYearSeries df y start_idx (start_idx + sliceLen y) ::
      make_time_series df rest (start_idx + sliceLen y)

/-- The dataframe position at which the slice of the `i`-th requested year
begins: the initial `start_idx` plus the widths of all earlier slices. -/
def sliceStart (years : List Nat) (start_idx i : Nat) : Nat :=
  start_idx + ((years.take i).map sliceLen).sum

/-- Calendar day of a minute-resolution timestamp (minutes since epoch):
the daily bin `resample('D')` assigns the observation to. -/
def dayOf (t : Nat) : Nat := t / 1440

/-- The values observed on day `d`, in order. -/
def obsOn (xs : List (Nat × ℚ)) (d : Nat) : List ℚ :=
  (xs.filter (fun p => dayOf p.1 == d)).map Prod.snd

/-- The mean of a bin: NaN (`none`) for an empty bin, else the arithmetic
mean. -/
def meanOpt (l : List ℚ) : Option ℚ :=
  if l.isEmpty then none else some (l.sum / l.length)

/-- Smallest day among `a` and the days of the entries of `xs`. -/
def minDayFrom (xs : List (Nat × ℚ)) (a : Nat) : Nat :=
  xs.foldl (fun m p => Nat.min m (dayOf p.1)) a

/-- Largest day among `a` and the days of the entries of `xs`. -/
def maxDayFrom (xs : List (Nat × ℚ)) (a : Nat) : Nat :=
  xs.foldl (fun m p => Nat.max m (dayOf p.1)) a

/-- `power_df.resample('D').mean()` with pandas semantics: one bin per
calendar day from the first through the last observed day, each bin holding
the arithmetic mean of its observations, and NaN (`none`) for a day with no
observation; an empty input yields an empty output. -/
def resampleDailyMean (xs : List (Nat × ℚ)) : List (Nat × Option ℚ) :=
  match xs with
  | [] => []
  | x :: rest =>
    let d0 := minDayFrom rest (dayOf x.1)
    let d1 := maxDayFrom rest (dayOf x.1)
    (List.range (d1 + 1 - d0)).map
      (fun k => (d0 + k, meanOpt (obsOn (x :: rest) (d0 + k))))

/-- `write_json_dataset` from the notebook: open the file for binary
writing and, for each series, write `json.dumps(series_to_json_obj(ts)) +
'\n'` encoded as UTF-8.  The result is the byte content of the file. -/
def write_json_dataset (time_series : List TimeSeries) : List Nat :=
  time_series.foldl
    (fun f ts => f ++ encodeUtf8 (dumps (series_to_json_obj ts) ++ "\n")) []

/-- A default series for the total modelling of the positional access
`input_ts[k]` (never reached in bounds). -/
def defaultSeries : TimeSeries :=
  { start := ⟨0, 0, 0, 0, 0, 0⟩, values := [] }

/-- `json_predictor_input` from the notebook: one instance per input series
(built by the loop `for k in range(len(input_ts))`), the output
configuration with `num_samples`, `output_types = ["quantiles"]` and the
requested quantile labels, then `json.dumps(...).encode('utf-8')`. -/
def json_predictor_input (input_ts : List TimeSeries) (num_samples : Nat)
    (quantiles : List String) : List Nat :=
  let instances := (List.range input_ts.length).map
    (fun k => series_to_json_obj (input_ts.getD k defaultSeries))
  let configuration := Json.obj
    [("num_samples", Json.num (num_samples : ℚ)),
     ("output_types", Json.arr [Json.str "quantiles"]),
     ("quantiles", Json.arr (quantiles.map Json.str))]
  let request_data := Json.obj
    [("instances", Json.arr instances),
     ("configuration", configuration)]
  encodeUtf8 (dumps request_data)

/-- Read a JSON array of numbers (the value sequence of one quantile). -/
def readNums : List Json → Option (List ℚ)
  | [] => some []
  | Json.num q :: rest => (readNums rest).map (fun vs => q :: vs)
  | _ :: _ => none

/-- Read the fields of a `quantiles` object into columns. -/
def readCols : List (String × Json) → Option (List (String × List ℚ))
  | [] => some []
  | (k, Json.arr vs) :: rest =>
    match readNums vs, readCols rest with
    | some nums, some cols => some ((k, nums) :: cols)
    | _, _ => none
  | _ :: _ => none

/-- `pd.DataFrame(data=quantiles_dict)`: a table with one column per key;
a dictionary of sequences of unequal lengths raises, modelled as `none`. -/
def mkDataFrame (cols : List (String × List ℚ)) :
    Option (List (String × List ℚ)) :=
  match cols with
  | [] => some []
  | c :: rest =>
    if rest.all (fun p => p.2.length == c.2.length) then some (c :: rest)
    else none

/-- One iteration of the decoding loop:
`pd.DataFrame(data=prediction_data['predictions'][k]['quantiles'])`. -/
def readTable (p : Json) : Option (List (String × List ℚ)) :=
  match jGet p "quantiles" with
  | some (Json.obj kvs) =>
    match readCols kvs with
    | some cols => mkDataFrame cols
    | none => none
  | _ => none

/-- The decoding loop over `prediction_data['predictions']`, in order. -/
def readPredictions : List Json → Option (List (List (String × List ℚ)))
  | [] => some []
  | p :: rest =>
    match readTable p, readPredictions rest with
    | some t, some ts => some (t :: ts)
    | _, _ => none

/-- `decode_prediction` from the notebook: parse the response, then build
one table (`pd.DataFrame` of the `quantiles` mapping) per entry of
`predictions`, in order.  A malformed payload (missing keys, non-numeric or
ragged columns) raises, modelled as `none`. -/
def decode_prediction (resp : Json) : Option (List (List (String × List ℚ))) :=
  match jGet resp "predictions" with
  | some (Json.arr preds) => readPredictions preds
  | _ => none

/-- The JSON wire form of one instance's quantile mapping, following the
response schema of §4.6 of the specification. -/
def quantilesJson (q : List (String × List ℚ)) : Json :=
  Json.obj (q.map (fun p => (p.1, Json.arr (p.2.map Json.num))))

/-- The JSON wire form of a well-formed quantile response: a `predictions`
array with one `quantiles` object per instance. -/
def responseJson (instances : List (List (String × List ℚ))) : Json :=
  Json.obj [("predictions", Json.arr
    (instances.map (fun q => Json.obj [("quantiles", quantilesJson q)])))]

/-- Decoding of one serialized series record: read back the `start` string
and the `target` numbers (the inverse direction of the round-trip claim). -/
def decodeJsonObj (j : Json) : Option (String × List ℚ) :=
  match jGet j "start", jGet j "target" with
  | some (Json.str s), some (Json.arr t) =>
    (readNums t).map (fun vs => (s, vs))
  | _, _ => none

/-! ### Helper lemmas -/

theorem readNums_map_num (vs : List ℚ) : readNums (vs.map Json.num) = some vs := by
  induction vs with
  | nil => rfl
  | cons v vs ih => simp [readNums, ih]

/-! ### C1 and C5: the train/test split -/

/-- C1: on inputs where every series has at least `prediction_length` points,
`create_training_series` succeeds with one output series per input series,
element `i` being element `i` of the input with its final
`prediction_length` points removed; the training series is `prediction_length`
points shorter than the original, and concatenating it with the removed
suffix reconstructs the original exactly (so it is a prefix of the
original). -/
theorem create_training_series_truncates (tss : List (List ℚ)) (L : Nat)
    (h : ∀ s ∈ tss, L ≤ s.length) :
    create_training_series tss L =
      Except.ok (tss.map (fun s => s.take (s.length - L))) ∧
    (tss.map (fun s => s.take (s.length - L))).length = tss.length ∧
    ∀ s ∈ tss, (s.take (s.length - L)).length = s.length - L ∧
      (s.drop (s.length - L)).length = L ∧
      s.take (s.length - L) ++ s.drop (s.length - L) = s := by
  have hall : tss.all (fun s => decide (L ≤ s.length)) = true := by
    simp only [List.all_eq_true, decide_eq_true_eq]
    exact h
  refine ⟨by simp [create_training_series, hall], by simp, ?_⟩
  intro s hs
  have hL : L ≤ s.length := h s hs
  refine ⟨?_, ?_, List.take_append_drop _ _⟩
  · simp only [List.length_take]
    omega
  · simp only [List.length_drop]
    omega

/-- Witness for C1 at a concrete input: a 5-point series with horizon 2. -/
theorem create_training_series_truncates_witness :
    create_training_series [[(1 : ℚ), 2, 3, 4, 5]] 2 =
      Except.ok [[(1 : ℚ), 2, 3]] := by
  have h := create_training_series_truncates [[(1 : ℚ), 2, 3, 4, 5]] 2
    (by intro s hs; simp at hs; subst hs; simp)
  simpa using h.1

/-- C5: if some input series has fewer than `prediction_length` points,
`create_training_series` raises an explicit error. -/
theorem create_training_series_short_raises (tss : List (List ℚ)) (L : Nat)
    (h : ∃ s ∈ tss, s.length < L) :
    ∃ msg, create_training_series tss L = Except.error msg := by
  obtain ⟨s, hs, hlen⟩ := h
  have hall : tss.all (fun s => decide (L ≤ s.length)) = false := by
    simp only [List.all_eq_false, decide_eq_true_eq]
    exact ⟨s, hs, by omega⟩
  refine ⟨"series shorter than prediction_length", ?_⟩
  simp [create_training_series, hall]

/-- Witness for C5 at a concrete input: a 1-point series with horizon 5. -/
theorem create_training_series_short_raises_witness :
    ∃ msg, create_training_series [[(1 : ℚ)]] 5 = Except.error msg :=
  create_training_series_short_raises [[(1 : ℚ)]] 5 ⟨[(1 : ℚ)], by simp, by simp⟩

/-! ### C3 and C6: the JSON record of one series -/

/-- C3: the record built by `series_to_json_obj` has exactly the keys
`start` and `target` (in particular no `cat` field), `start` holds the first
timestamp of the series formatted `"YYYY-MM-DD HH:MM:SS"` (illustrated on the
first timestamp of this dataset), and `target` holds exactly the values of
the series in their existing order, so its length equals the series
length. -/
theorem series_to_json_obj_record (ts : TimeSeries) :
    objKeys (series_to_json_obj ts) = ["start", "target"] ∧
    (objKeys (series_to_json_obj ts)).contains "cat" = false ∧
    jGet (series_to_json_obj ts) "start" =
      some (Json.str (formatTimestamp ts.start)) ∧
    jGet (series_to_json_obj ts) "target" =
      some (Json.arr (ts.values.map Json.num)) ∧
    (ts.values.map Json.num).length = ts.values.length ∧
    formatTimestamp ⟨2007, 1, 1, 0, 0, 0⟩ = "2007-01-01 00:00:00" := by
  refine ⟨rfl, rfl, rfl, rfl, by simp, by decide⟩

/-- C6: decoding the record produced by `series_to_json_obj` recovers the
formatted start timestamp and the full value sequence verbatim. -/
theorem series_to_json_obj_roundtrip (ts : TimeSeries) :
    decodeJsonObj (series_to_json_obj ts) =
      some (formatTimestamp ts.start, ts.values) := by
  have h : decodeJsonObj (series_to_json_obj ts) =
      (readNums (ts.values.map Json.num)).map
        (fun vs => (formatTimestamp ts.start, vs)) := rfl
  rw [h, readNums_map_num]
  rfl

/-! ### C7: the line-delimited JSON file -/

theorem encodeUtf8_append (a b : String) :
    encodeUtf8 (a ++ b) = encodeUtf8 a ++ encodeUtf8 b := by
  simp [encodeUtf8, String.data_append]

theorem foldl_append_flatten {α β : Type} (f : α → List β) :
    ∀ (l : List α) (acc : List β),
      l.foldl (fun a x => a ++ f x) acc = acc ++ (l.map f).flatten := by
  intro l
  induction l with
  | nil => simp
  | cons x xs ih => intro acc; simp [ih]

/-- C7: `write_json_dataset` writes, in the order of the input list, exactly
one serialized record per input series; the file content is the
concatenation of the UTF-8 encodings of those records, each terminated by a
newline byte, and every record carries exactly the keys `start` and
`target` (no trailing `cat` field). -/
theorem write_json_dataset_lines (tss : List TimeSeries) :
    write_json_dataset tss =
      (tss.map
        (fun ts => encodeUtf8 (dumps (series_to_json_obj ts) ++ "\n"))).flatten ∧
    (∀ ts ∈ tss,
      encodeUtf8 (dumps (series_to_json_obj ts) ++ "\n") =
        encodeUtf8 (dumps (series_to_json_obj ts)) ++ [10] ∧
      objKeys (series_to_json_obj ts) = ["start", "target"]) := by
  constructor
  · simpa [write_json_dataset] using
      foldl_append_flatten
        (fun ts => encodeUtf8 (dumps (series_to_json_obj ts) ++ "\n")) tss []
  · intro ts _
    exact ⟨by rw [encodeUtf8_append]; rfl, rfl⟩

/-- Witness for C7 at a concrete one-series input. -/
theorem write_json_dataset_lines_witness :
    write_json_dataset [⟨⟨2007, 1, 1, 0, 0, 0⟩, [2]⟩] =
      encodeUtf8 (dumps (series_to_json_obj ⟨⟨2007, 1, 1, 0, 0, 0⟩, [2]⟩)) ++
        [10] := by
  have h := write_json_dataset_lines [⟨⟨2007, 1, 1, 0, 0, 0⟩, [2]⟩]
  have h2 := h.2 ⟨⟨2007, 1, 1, 0, 0, 0⟩, [2]⟩ (by simp)
  rw [h.1]
  simpa using h2.1

/-! ### C8: the prediction request -/

theorem range_getD_map {α β : Type} (f : α → β) (d : α) :
    ∀ l : List α,
      (List.range l.length).map (fun k => f (l.getD k d)) = l.map f := by
  intro l
  induction l with
  | nil => simp
  | cons x xs ih =>
    simp only [List.length_cons, List.range_succ_eq_map, List.map_cons,
      List.getD_cons_zero, List.map_map]
    refine congrArg (f x :: ·) ?_
    have hfun : (fun k => f ((x :: xs).getD k d)) ∘ Nat.succ =
        fun k => f (xs.getD k d) := by
      funext k
      simp
    rw [hfun, ih]

/-- C8: `json_predictor_input` produces the UTF-8 encoded serialization of
the request `\x7b"instances": [...], "configuration": \x7b"num_samples",
"output_types": ["quantiles"], "quantiles"\x7d\x7d`, with exactly one
instance per input series, in input order. -/
theorem json_predictor_input_shape (input_ts : List TimeSeries)
    (num_samples : Nat) (quantiles : List String) :
    json_predictor_input input_ts num_samples quantiles =
      encodeUtf8 (dumps (Json.obj
        [("instances", Json.arr (input_ts.map series_to_json_obj)),
         ("configuration", Json.obj
           [("num_samples", Json.num (num_samples : ℚ)),
            ("output_types", Json.arr [Json.str "quantiles"]),
            ("quantiles", Json.arr (quantiles.map Json.str))])])) ∧
    (input_ts.map series_to_json_obj).length = input_ts.length := by
  constructor
  · unfold json_predictor_input
    rw [range_getD_map series_to_json_obj defaultSeries input_ts]
  · simp

/-! ### C2 and C10: the yearly series -/

set_option maxRecDepth 4000 in
theorem yearDates_length (leap : Bool) :
    (yearDates leap).length = if leap then 366 else 365 := by
  cases leap <;> decide

theorem yearDates_head (leap : Bool) :
    (yearDates leap).head? = some (1, 1) := by
  cases leap <;> decide

theorem yearDates_last (leap : Bool) :
    (yearDates leap).getLast? = some (12, 31) := by
  cases leap <;> decide

theorem datesOfYear_length (y : Nat) :
    (datesOfYear y).length = if isLeapYear y then 366 else 365 := by
  simp [datesOfYear, yearDates_length]

theorem mkYearSeries_dates (df : List (Date × ℚ)) (y s e : Nat) :
    (mkYearSeries df y s e).map Prod.fst = datesOfYear y := by
  simp [mkYearSeries, Function.comp_def]

theorem mkYearSeries_length (df : List (Date × ℚ)) (y s e : Nat) :
    (mkYearSeries df y s e).length = if isLeapYear y then 366 else 365 := by
  have h := congrArg List.length (mkYearSeries_dates df y s e)
  simpa [datesOfYear_length] using h

theorem make_time_series_length (df : List (Date × ℚ)) :
    ∀ (years : List Nat) (s : Nat),
      (make_time_series df years s).length = years.length := by
  intro years
  induction years with
  | nil => intro s; rfl
  | cons y rest ih => intro s; simp [make_time_series, ih]

/-- C2: every series returned by `make_time_series` has 366 daily points
when its year is a Gregorian leap year and 365 points otherwise — the point
count comes from the year's own Jan 1 … Dec 31 daily index, for any
requested year and not merely the hardcoded `'2008'` — and the series spans
January 1 through December 31 of its year. -/
theorem make_time_series_leap_year_sizes (df : List (Date × ℚ))
    (years : List Nat) (s i : Nat) (hi : i < years.length) :
    (make_time_series df years s).length = years.length ∧
    ((make_time_series df years s).getD i []).length =
      (if isLeapYear (years.getD i 0) then 366 else 365) ∧
    (((make_time_series df years s).getD i []).map Prod.fst).head? =
      some (years.getD i 0, 1, 1) ∧
    (((make_time_series df years s).getD i []).map Prod.fst).getLast? =
      some (years.getD i 0, 12, 31) := by
  refine ⟨make_time_series_length df years s, ?_⟩
  induction years generalizing s i with
  | nil => exact absurd hi (by simp)
  | cons y rest ih =>
    cases i with
    | zero =>
      refine ⟨by simpa [make_time_series] using mkYearSeries_length df y s _, ?_, ?_⟩
      · rw [show (make_time_series df (y :: rest) s).getD 0 [] =
            mkYearSeries df y s (s + sliceLen y) from rfl]
        rw [mkYearSeries_dates]
        simp only [datesOfYear, List.head?_map, yearDates_head]
        rfl
      · rw [show (make_time_series df (y :: rest) s).getD 0 [] =
            mkYearSeries df y s (s + sliceLen y) from rfl]
        rw [mkYearSeries_dates]
        simp only [datesOfYear, List.getLast?_map, yearDates_last]
        rfl
    | succ j =>
      have hj : j < rest.length := by simpa using hi
      have h := ih (s + sliceLen y) j hj
      simpa [make_time_series] using h

/-- Witness for C2 at the year 2012: a leap year that is not the hardcoded
`2008`, whose series nonetheless has 366 points, from Jan 1 to Dec 31. -/
theorem make_time_series_leap_year_sizes_witness :
    ((make_time_series [] [2012] 0).getD 0 []).length = 366 ∧
    (((make_time_series [] [2012] 0).getD 0 []).map Prod.fst).head? =
      some (2012, 1, 1) ∧
    (((make_time_series [] [2012] 0).getD 0 []).map Prod.fst).getLast? =
      some (2012, 12, 31) := by
  have h := make_time_series_leap_year_sizes [] [2012] 0 0 (by simp)
  refine ⟨?_, by simpa using h.2.2.1, by simpa using h.2.2.2⟩
  have h2 := h.2.1
  rw [show isLeapYear (([2012] : List Nat).getD 0 0) = true from rfl] at h2
  simpa using h2

theorem sliceStart_zero (years : List Nat) (s : Nat) :
    sliceStart years s 0 = s := by
  simp [sliceStart]

theorem sliceStart_cons (y : Nat) (rest : List Nat) (s i : Nat) :
    sliceStart (y :: rest) s (i + 1) = sliceStart rest (s + sliceLen y) i := by
  simp [sliceStart, List.take_succ_cons]
  omega

/-- C10: `make_time_series` consumes the daily dataframe in contiguous,
non-overlapping slices: it returns exactly one series per requested year, in
the given order; series `i` is built from the dataframe positions
`[sliceStart i, sliceStart i + sliceLen year_i)`; the first slice begins at
the initial `start_idx`, and each following slice begins exactly where the
previous one ended (`start_idx = end_idx`), so the slices abut with no gap
and no overlap and jointly cover one unbroken block. -/
theorem make_time_series_contiguous_slices (df : List (Date × ℚ))
    (years : List Nat) (s i : Nat) (hi : i < years.length) :
    (make_time_series df years s).length = years.length ∧
    sliceStart years s 0 = s ∧
    (make_time_series df years s).getD i [] =
      mkYearSeries df (years.getD i 0) (sliceStart years s i)
        (sliceStart years s i + sliceLen (years.getD i 0)) ∧
    sliceStart years s (i + 1) =
      sliceStart years s i + sliceLen (years.getD i 0) := by
  refine ⟨make_time_series_length df years s, sliceStart_zero years s, ?_⟩
  induction years generalizing s i with
  | nil => exact absurd hi (by simp)
  | cons y rest ih =>
    cases i with
    | zero =>
      refine ⟨?_, ?_⟩
      · rw [show (make_time_series df (y :: rest) s).getD 0 [] =
            mkYearSeries df y s (s + sliceLen y) from rfl,
          show ((y : Nat) :: rest).getD 0 0 = y from rfl, sliceStart_zero]
      · rw [show ((y : Nat) :: rest).getD 0 0 = y from rfl,
          sliceStart_cons, sliceStart_zero, sliceStart_zero]
    | succ j =>
      have hj : j < rest.length := by simpa using hi
      have h := ih (s + sliceLen y) j hj
      constructor
      · rw [show (make_time_series df (y :: rest) s).getD (j + 1) [] =
            (make_time_series df rest (s + sliceLen y)).getD j [] from rfl]
        rw [show ((y : Nat) :: rest).getD (j + 1) 0 = rest.getD j 0 from rfl]
        rw [sliceStart_cons]
        exact h.1
      · rw [show ((y : Nat) :: rest).getD (j + 1) 0 = rest.getD j 0 from rfl]
        rw [sliceStart_cons, sliceStart_cons]
        exact h.2

/-- Witness for C10 at a concrete input: two years starting at position 16;
the 2008 slice begins at 381 = 16 + 365, exactly where the 2007 slice
ends. -/
theorem make_time_series_contiguous_slices_witness :
    (make_time_series [] [2007, 2008] 16).length = 2 ∧
    sliceStart [2007, 2008] 16 0 = 16 ∧
    (make_time_series [] [2007, 2008] 16).getD 1 [] =
      mkYearSeries [] 2008 381 747 ∧
    sliceStart [2007, 2008] 16 2 = 747 := by
  have h := make_time_series_contiguous_slices [] [2007, 2008] 16 1 (by simp)
  refine ⟨h.1, h.2.1, ?_, ?_⟩
  · have h3 := h.2.2.1
    rw [show sliceStart [2007, 2008] 16 1 = 381 from rfl] at h3
    simpa using h3
  · have h4 := h.2.2.2
    rw [show sliceStart [2007, 2008] 16 1 = 381 from rfl] at h4
    simpa using h4

/-! ### C4: daily resampling -/

theorem minDayFrom_le (xs : List (Nat × ℚ)) :
    ∀ a, minDayFrom xs a ≤ a := by
  induction xs with
  | nil => intro a; exact Nat.le_refl a
  | cons q r ih =>
    intro a
    calc minDayFrom (q :: r) a = minDayFrom r (Nat.min a (dayOf q.1)) := rfl
    _ ≤ Nat.min a (dayOf q.1) := ih _
    _ ≤ a := Nat.min_le_left _ _

theorem minDayFrom_le_mem (xs : List (Nat × ℚ)) :
    ∀ a p, p ∈ xs → minDayFrom xs a ≤ dayOf p.1 := by
  induction xs with
  | nil => intro a p hp; exact absurd hp (List.not_mem_nil p)
  | cons q r ih =>
    intro a p hp
    rcases List.mem_cons.mp hp with h | h
    · subst h
      calc minDayFrom (p :: r) a = minDayFrom r (Nat.min a (dayOf p.1)) := rfl
      _ ≤ Nat.min a (dayOf p.1) := minDayFrom_le r _
      _ ≤ dayOf p.1 := Nat.min_le_right _ _
    · exact ih _ p h

theorem le_maxDayFrom (xs : List (Nat × ℚ)) :
    ∀ a, a ≤ maxDayFrom xs a := by
  induction xs with
  | nil => intro a; exact Nat.le_refl a
  | cons q r ih =>
    intro a
    calc a ≤ Nat.max a (dayOf q.1) := Nat.le_max_left _ _
    _ ≤ maxDayFrom r (Nat.max a (dayOf q.1)) := ih _
    _ = maxDayFrom (q :: r) a := rfl

theorem mem_le_maxDayFrom (xs : List (Nat × ℚ)) :
    ∀ a p, p ∈ xs → dayOf p.1 ≤ maxDayFrom xs a := by
  induction xs with
  | nil => intro a p hp; exact absurd hp (List.not_mem_nil p)
  | cons q r ih =>
    intro a p hp
    rcases List.mem_cons.mp hp with h | h
    · subst h
      calc dayOf p.1 ≤ Nat.max a (dayOf p.1) := Nat.le_max_right _ _
      _ ≤ maxDayFrom r (Nat.max a (dayOf p.1)) := le_maxDayFrom r _
      _ = maxDayFrom (p :: r) a := rfl
    · exact ih _ p h

theorem lookup_range_map (f : Nat → Option ℚ) :
    ∀ (n d0 d : Nat), d0 ≤ d → d < d0 + n →
      List.lookup d ((List.range n).map (fun k => (d0 + k, f (d0 + k)))) =
        some (f d) := by
  intro n
  induction n with
  | zero => intro d0 d h1 h2; omega
  | succ m ih =>
    intro d0 d h1 h2
    rw [List.range_succ_eq_map]
    simp only [List.map_cons, List.map_map]
    by_cases hd : d = d0
    · subst hd
      simp [List.lookup]
    · have hfun : ((fun k => (d0 + k, f (d0 + k))) ∘ Nat.succ) =
          (fun k => ((d0 + 1) + k, f ((d0 + 1) + k))) := by
        funext k
        refine Prod.ext ?_ ?_
        · show d0 + (k + 1) = (d0 + 1) + k
          omega
        · show f (d0 + (k + 1)) = f ((d0 + 1) + k)
          exact congrArg f (by omega)
      rw [hfun]
      have hne : (d == d0 + 0) = false := by
        simp only [Nat.add_zero]
        exact beq_eq_false_iff_ne.mpr hd
      simp only [List.lookup, hne]
      exact ih (d0 + 1) d (by omega) (by omega)

theorem minDayFrom_le_mem_aux (x : Nat × ℚ) (rest : List (Nat × ℚ))
    (p : Nat × ℚ) (hp : p ∈ x :: rest) :
    minDayFrom rest (dayOf x.1) ≤ dayOf p.1 := by
  rcases List.mem_cons.mp hp with h | h
  · subst h
    exact minDayFrom_le rest (dayOf p.1)
  · exact minDayFrom_le_mem rest (dayOf x.1) p h

theorem mem_le_maxDayFrom_aux (x : Nat × ℚ) (rest : List (Nat × ℚ))
    (p : Nat × ℚ) (hp : p ∈ x :: rest) :
    dayOf p.1 ≤ maxDayFrom rest (dayOf x.1) := by
  rcases List.mem_cons.mp hp with h | h
  · subst h
    exact le_maxDayFrom rest (dayOf p.1)
  · exact mem_le_maxDayFrom rest (dayOf x.1) p h

/-- C4 (amended): daily resampling of a nonempty minute-level series
produces one bin per calendar day from the first through the last observed
day, each day appearing exactly once (keyed by calendar date); a day with at
least one observation carries the arithmetic mean of all its minute values,
while a day with zero observations inside the observed span still appears —
as an explicit missing marker (`none`, pandas NaN) — rather than being
absent; an empty input yields an empty output. -/
theorem resample_daily_mean_amended (x : Nat × ℚ) (rest : List (Nat × ℚ))
    (d : Nat) :
    ((resampleDailyMean (x :: rest)).map Prod.fst).Nodup ∧
    (obsOn (x :: rest) d ≠ [] →
      List.lookup d (resampleDailyMean (x :: rest)) =
        some (some ((obsOn (x :: rest) d).sum /
          ((obsOn (x :: rest) d).length : ℚ)))) ∧
    (obsOn (x :: rest) d = [] →
      minDayFrom rest (dayOf x.1) ≤ d →
      d ≤ maxDayFrom rest (dayOf x.1) →
      List.lookup d (resampleDailyMean (x :: rest)) = some none) ∧
    resampleDailyMean ([] : List (Nat × ℚ)) = [] := by
  have hd0 : minDayFrom rest (dayOf x.1) ≤ maxDayFrom rest (dayOf x.1) :=
    Nat.le_trans (minDayFrom_le rest (dayOf x.1)) (le_maxDayFrom rest (dayOf x.1))
  have hres : resampleDailyMean (x :: rest) =
      (List.range (maxDayFrom rest (dayOf x.1) + 1 - minDayFrom rest (dayOf x.1))).map
        (fun k => (minDayFrom rest (dayOf x.1) + k,
          meanOpt (obsOn (x :: rest) (minDayFrom rest (dayOf x.1) + k)))) := rfl
  refine ⟨?_, ?_, ?_, rfl⟩
  · rw [hres, List.map_map]
    have hcomp : (Prod.fst ∘ fun k => (minDayFrom rest (dayOf x.1) + k,
        meanOpt (obsOn (x :: rest) (minDayFrom rest (dayOf x.1) + k)))) =
        (fun k => minDayFrom rest (dayOf x.1) + k) := rfl
    rw [hcomp]
    exact List.Nodup.map (fun a b h => by omega) (List.nodup_range _)
  · intro hne
    have hmem : ∃ p ∈ x :: rest, (dayOf p.1 == d) = true := by
      by_contra hall
      push_neg at hall
      apply hne
      have hfil : (x :: rest).filter (fun p => dayOf p.1 == d) = [] :=
        List.filter_eq_nil_iff.mpr (fun p hp => by simp [hall p hp])
      simp [obsOn, hfil]
    obtain ⟨p, hp, hpd⟩ := hmem
    have hpd' : dayOf p.1 = d := by simpa using hpd
    have hlo : minDayFrom rest (dayOf x.1) ≤ d := by
      rw [← hpd']
      exact minDayFrom_le_mem_aux x rest p hp
    have hhi : d ≤ maxDayFrom rest (dayOf x.1) := by
      rw [← hpd']
      exact mem_le_maxDayFrom_aux x rest p hp
    rw [hres]
    have hlook := lookup_range_map (fun day => meanOpt (obsOn (x :: rest) day))
      (maxDayFrom rest (dayOf x.1) + 1 - minDayFrom rest (dayOf x.1))
      (minDayFrom rest (dayOf x.1)) d hlo (by omega)
    refine Eq.trans hlook ?_
    have hmean : meanOpt (obsOn (x :: rest) d) =
        some ((obsOn (x :: rest) d).sum / ((obsOn (x :: rest) d).length : ℚ)) := by
      simp [meanOpt, List.isEmpty_iff, hne]
    exact congrArg some hmean
  · intro hempty hlo hhi
    rw [hres]
    have hlook := lookup_range_map (fun day => meanOpt (obsOn (x :: rest) day))
      (maxDayFrom rest (dayOf x.1) + 1 - minDayFrom rest (dayOf x.1))
      (minDayFrom rest (dayOf x.1)) d hlo (by omega)
    refine Eq.trans hlook ?_
    show some (meanOpt (obsOn (x :: rest) d)) = some none
    simp [meanOpt, hempty]

/-- C4 counterexample: minute observations on day 0 and day 2 only.  Day 1
has zero observations, yet it does appear in the resampled output — as an
explicit missing marker (`none`, pandas NaN) — contradicting the claim that
days with zero observations are never produced. -/
theorem resample_gap_day_appears :
    obsOn [(0, (1 : ℚ)), (2880, 3)] 1 = [] ∧
    (1, (none : Option ℚ)) ∈ resampleDailyMean [(0, (1 : ℚ)), (2880, 3)] := by
  refine ⟨rfl, ?_⟩
  exact List.get?_mem
    (show (resampleDailyMean [(0, (1 : ℚ)), (2880, 3)]).get? 1 =
      some (1, none) from rfl)

/-- Witness for the amended C4 theorem: the same gapped input, evaluated on
an observed day (the mean branch) and on the gap day (the marker branch). -/
theorem resample_daily_mean_amended_witness :
    List.lookup 2 (resampleDailyMean [(0, (1 : ℚ)), (2880, 3)]) =
      some (some 3) ∧
    List.lookup 1 (resampleDailyMean [(0, (1 : ℚ)), (2880, 3)]) = some none := by
  constructor
  · have h := (resample_daily_mean_amended (0, (1 : ℚ)) [(2880, 3)] 2).2.1
      (by decide)
    have h2 : ((obsOn [(0, (1 : ℚ)), (2880, 3)] 2).sum /
        ((obsOn [(0, (1 : ℚ)), (2880, 3)] 2).length : ℚ)) = 3 := by
      norm_num [obsOn, dayOf]
    rw [h2] at h
    exact h
  · exact (resample_daily_mean_amended (0, (1 : ℚ)) [(2880, 3)] 1).2.2.1
      (by decide) (by decide) (by decide)

/-! ### C9: decoding the quantile response -/

theorem readCols_encode (q : List (String × List ℚ)) :
    readCols (q.map (fun p => (p.1, Json.arr (p.2.map Json.num)))) = some q := by
  induction q with
  | nil => rfl
  | cons c cs ih =>
    obtain ⟨k, v⟩ := c
    simp [readCols, readNums_map_num, ih]

theorem mkDataFrame_of_uniform (q : List (String × List ℚ)) (L : Nat)
    (h : ∀ col ∈ q, col.2.length = L) : mkDataFrame q = some q := by
  cases q with
  | nil => rfl
  | cons c cs =>
    have hall : cs.all (fun p => p.2.length == c.2.length) = true := by
      simp only [List.all_eq_true, beq_iff_eq]
      intro p hp
      rw [h p (List.mem_cons_of_mem c hp), h c (List.mem_cons_self c cs)]
    simp [mkDataFrame, hall]

theorem readTable_encode (q : List (String × List ℚ)) (L : Nat)
    (h : ∀ col ∈ q, col.2.length = L) :
    readTable (Json.obj [("quantiles", quantilesJson q)]) = some q := by
  have h1 : readTable (Json.obj [("quantiles", quantilesJson q)]) =
      (match readCols (q.map (fun p => (p.1, Json.arr (p.2.map Json.num)))) with
       | some cols => mkDataFrame cols
       | none => none) := rfl
  rw [h1, readCols_encode]
  exact mkDataFrame_of_uniform q L h

theorem readPredictions_encode (L : Nat) :
    ∀ instances : List (List (String × List ℚ)),
      (∀ inst ∈ instances, ∀ col ∈ inst, col.2.length = L) →
      readPredictions (instances.map
        (fun q => Json.obj [("quantiles", quantilesJson q)])) =
        some instances := by
  intro instances
  induction instances with
  | nil => intro _; rfl
  | cons q qs ih =>
    intro h
    have hq := readTable_encode q L (h q (List.mem_cons_self q qs))
    have hqs := ih (fun inst hinst => h inst (List.mem_cons_of_mem q hinst))
    simp [readPredictions, hq, hqs]

/-- C9: decoding a well-formed quantile response — one
`predictions[i].quantiles` mapping per instance, each quantile label mapping
to an ordered sequence of `prediction_length` values — produces exactly one
table per instance, in the instances' original order, with one column per
quantile label of that instance carrying its value sequence (hence
`prediction_length` rows). -/
theorem decode_prediction_tables (instances : List (List (String × List ℚ)))
    (prediction_length : Nat)
    (h : ∀ inst ∈ instances, ∀ col ∈ inst, col.2.length = prediction_length) :
    decode_prediction (responseJson instances) = some instances := by
  have h1 : decode_prediction (responseJson instances) =
      readPredictions (instances.map
        (fun q => Json.obj [("quantiles", quantilesJson q)])) := rfl
  rw [h1]
  exact readPredictions_encode prediction_length instances h

/-- Witness for C9 at a concrete response: one instance with the three
default quantile labels, two predicted points each. -/
theorem decode_prediction_tables_witness :
    decode_prediction (responseJson
      [[("0.1", [(1 : ℚ), 2]), ("0.5", [3, 4]), ("0.9", [5, 6])]]) =
      some [[("0.1", [(1 : ℚ), 2]), ("0.5", [3, 4]), ("0.9", [5, 6])]] := by
  exact decode_prediction_tables
    [[("0.1", [(1 : ℚ), 2]), ("0.5", [3, 4]), ("0.9", [5, 6])]] 2 (by decide)
